import Mathlib

/-!
Shallow embedding of `open_gopro/ble/services.py` (Open GoPro BLE services
module): the `UUID` value type, `Descriptor` / `Characteristic` / `Service`
records, the `GattDB` aggregate with its flattened characteristic view,
handle/UUID resolution, and the CSV dump.

Conventions of the embedding:
* Python `bytes` are `List Nat` with each element `< 256`.
* Python `str` is `List Char`.
* Python dictionaries (`Dict[UUID, ...]`) are association lists in
  insertion order; dictionary iteration (`.values()`, `.keys()`, `.items()`)
  walks that order, exactly as Python dicts do.
* Fallible Python code (raising `KeyError`, `OverflowError`, `ValueError`,
  or a bare `Exception`) returns `Except GattError`.
-/

namespace OpenGoPro

/-- The exceptions raised by the Python module: `KeyError` on lookup misses,
`OverflowError`/`ValueError` on failed byte/hex conversions, `ValueError`
when `SpecUuidNumber(...)` is applied to an unknown number during the CSV
dump, and the bare `Exception` raised by `UUIDs.__new__`. -/
inductive GattError where
  | keyError
  | overflowError
  | encodingError
  | valueError
  | constructionError
deriving DecidableEq, Repr

/-- The character for one hex nibble, lower case: models one digit of Python
`bytes.hex()`. -/
def hexDigitChar (n : Nat) : Char :=
  if n < 10 then Char.ofNat (Char.toNat '0' + n) else Char.ofNat (Char.toNat 'a' + (n - 10))

/-- The two lower-case hex digits of one byte, as produced by `bytes.hex()`. -/
def byteHex (b : Nat) : List Char :=
  [hexDigitChar (b / 16), hexDigitChar (b % 16)]

/-- `bytes.hex()`: the concatenated lower-case hex digits of a byte string. -/
def bytesHex (bs : List Nat) : List Char :=
  (bs.map byteHex).flatten

/-- The hex digits accepted by `bytes.fromhex` with their values. -/
def hexDigitVals : List (Char × Nat) :=
  [('0', 0), ('1', 1), ('2', 2), ('3', 3), ('4', 4), ('5', 5), ('6', 6), ('7', 7),
   ('8', 8), ('9', 9),
   ('a', 10), ('b', 11), ('c', 12), ('d', 13), ('e', 14), ('f', 15),
   ('A', 10), ('B', 11), ('C', 12), ('D', 13), ('E', 14), ('F', 15)]

/-- The value of one hex digit, or `none` for a non-hex character. -/
def hexVal? (c : Char) : Option Nat :=
  (hexDigitVals.find? (fun p => p.1 == c)).map (fun p => p.2)

/-- `bytes.fromhex`: decode pairs of hex digits into bytes; fails on a
non-hex character or an odd number of digits (`ValueError` in Python). -/
def fromhex : List Char → Option (List Nat)
  | [] => some []
  | [_] => none
  | c1 :: c2 :: rest =>
    match hexVal? c1, hexVal? c2, fromhex rest with
    | some hi, some lo, some bs => some ((16 * hi + lo) :: bs)
    | _, _, _ => none

/-- `int.to_bytes(n, length, "big")`: fixed-width big-endian byte encoding
(the overflow check lives in `UUID.from_int`). -/
def natToBytesBE : Nat → Nat → List Nat
  | 0, _ => []
  | k + 1, n => natToBytesBE k (n / 256) ++ [n % 256]

/-- `class UUID`: a raw byte value (2 or 16 bytes in practice) plus an
optional display name. -/
structure UUID where
  value : List Nat
  name : List Char
deriving DecidableEq, Repr

/-- `UUID.as_int`: `int.from_bytes(self.value, "big")`. -/
def UUID.as_int (u : UUID) : Nat :=
  u.value.foldl (fun acc b => 256 * acc + b) 0

/-- `UUID.as_string`: hyphenates `self.value.hex()` at the fixed slice
positions 8, 12, 16, 20 (`h[:8]-h[8:12]-h[12:16]-h[16:20]-h[20:]`; the
f-string recomputes `self.value.hex()` for each slice). -/
def UUID.as_string (u : UUID) : List Char :=
  (bytesHex u.value).take 8 ++ '-' :: (((bytesHex u.value).drop 8).take 4 ++ '-' ::
    (((bytesHex u.value).drop 12).take 4 ++ '-' ::
      (((bytesHex u.value).drop 16).take 4 ++ '-' :: (bytesHex u.value).drop 20)))

/-- `UUID.normalize`: `uuid.replace(":", "").replace("-", "")`. Replacing a
single character by the empty string is removal of that character. -/
def UUID.normalize (uuid : List Char) : List Char :=
  (uuid.filter (fun c => c != ':')).filter (fun c => c != '-')

/-- `UUID.from_int`: big-endian encode into exactly `length` bytes;
`int.to_bytes` raises `OverflowError` when the value does not fit. -/
def UUID.from_int (uuid : Nat) (length : Nat) (name : List Char) : Except GattError UUID :=
  if uuid < 256 ^ length then .ok ⟨natToBytesBE length uuid, name⟩ else .error .overflowError

/-- `UUID.from_string`: `bytes.fromhex(UUID.normalize(uuid))`; `ValueError`
on invalid hex. -/
def UUID.from_string (uuid : List Char) (name : List Char) : Except GattError UUID :=
  match fromhex (UUID.normalize uuid) with
  | some bs => .ok ⟨bs, name⟩
  | none => .error .encodingError

/-- The right-hand operands accepted by `UUID.__eq__` (`other: object`):
another UUID, an int, a bytes value, a str, or anything else. -/
inductive PyValue where
  | uuid (u : UUID)
  | int (n : Nat)
  | bytes (b : List Nat)
  | str (s : List Char)
  | other
deriving DecidableEq, Repr

/-- `UUID.__eq__`: dispatch on the runtime type of `other`. For a string the
code compares `self.as_string.replace(":", "").lower() == other.lower()` —
only colons are removed from the rendered form, and nothing is removed from
`other`. -/
def UUID.eq (self : UUID) : PyValue → Bool
  | .uuid o => self.value == o.value
  | .int n => self.as_int == n
  | .bytes b => self.value == b
  | .str s =>
    ((self.as_string.filter (fun c => c != ':')).map Char.toLower) == s.map Char.toLower
  | .other => false

/- `class CharProps(IntFlag)`: the BLE characteristic property bitmask
values, kept as plain naturals (Python `IntFlag` members are ints). -/
namespace CharProps

def NONE : Nat := 0x00
def BROADCAST : Nat := 0x01
def READ : Nat := 0x02
def WRITE_NO_RSP : Nat := 0x04
def WRITE_YES_RSP : Nat := 0x08
def NOTIFY : Nat := 0x10
def INDICATE : Nat := 0x20
def AUTH_SIGN_WRITE : Nat := 0x40
def EXTENDED : Nat := 0x80
def NOTIFY_ENCRYPTION_REQ : Nat := 0x100
def INDICATE_ENCRYPTION_REQ : Nat := 0x200

end CharProps

/-- `class SpecUuidNumber(IntEnum)`: value/member-name pairs, in declaration
order. `SpecUuidNumber(n).name` is modelled by `SpecUuidNumber.name?`. -/
def SpecUuidNumber.table : List (Nat × List Char) :=
  [(0x2800, "PRIMARY_SERVICE".data),
   (0x2801, "SECONDARY_SERVICE".data),
   (0x2802, "INCLUDE".data),
   (0x2803, "CHAR_DECLARATION".data),
   (0x2900, "CHAR_EXTENDED_PROPS".data),
   (0x2901, "CHAR_USER_DESCR".data),
   (0x2902, "CLIENT_CHAR_CONFIG".data),
   (0x2903, "SERVER_CHAR_CONFIG".data),
   (0x2904, "CHAR_FORMAT".data),
   (0x2905, "CHAR_AGGREGATE_FORMAT".data)]

/-- `SpecUuidNumber(n).name`: the member name for a spec-defined UUID
number; `SpecUuidNumber(n)` raises `ValueError` on an unknown number. -/
def SpecUuidNumber.name? (n : Nat) : Option (List Char) :=
  (SpecUuidNumber.table.find? (fun p => p.1 == n)).map (fun p => p.2)

/-- `class Descriptor`: handle, uuid, optional raw value. -/
structure Descriptor where
  handle : Nat
  uuid : UUID
  value : Option (List Nat)
deriving DecidableEq, Repr

/-- `class Characteristic`: value handle, declaration handle
(`descriptor_handle` in the source), uuid, property bitmask, name, optional
value, and the descriptor dictionary (`Dict[UUID, Descriptor]`). -/
structure Characteristic where
  handle : Nat
  descriptor_handle : Nat
  uuid : UUID
  props : Nat
  name : List Char
  value : Option (List Nat)
  descriptors : List (UUID × Descriptor)
deriving DecidableEq, Repr

/-- `Characteristic.is_readable`: `CharProps.NOTIFY in self.props`. For the
single-bit flag `NOTIFY`, Python's `IntFlag.__contains__` is
`self.props & NOTIFY == NOTIFY`. -/
def Characteristic.is_readable (c : Characteristic) : Bool :=
  c.props &&& CharProps.NOTIFY == CharProps.NOTIFY

/-- `Characteristic.is_writeable_with_response`. -/
def Characteristic.is_writeable_with_response (c : Characteristic) : Bool :=
  c.props &&& CharProps.WRITE_YES_RSP == CharProps.WRITE_YES_RSP

/-- `Characteristic.is_writeable_without_response`. -/
def Characteristic.is_writeable_without_response (c : Characteristic) : Bool :=
  c.props &&& CharProps.WRITE_NO_RSP == CharProps.WRITE_NO_RSP

/-- `Characteristic.is_writeable`. -/
def Characteristic.is_writeable (c : Characteristic) : Bool :=
  c.is_writeable_with_response || c.is_writeable_without_response

/-- `Characteristic.is_notifiable`. -/
def Characteristic.is_notifiable (c : Characteristic) : Bool :=
  c.props &&& CharProps.NOTIFY == CharProps.NOTIFY

/-- `Characteristic.is_indicatable`. -/
def Characteristic.is_indicatable (c : Characteristic) : Bool :=
  c.props &&& CharProps.INDICATE == CharProps.INDICATE

/-- `UUID.from_int(SpecUuidNumber.CLIENT_CHAR_CONFIG, UuidLength.BIT_8)`:
the 2-byte CCCD UUID used as the dictionary key in `cccd_handle`. -/
def cccdUUID : UUID := ⟨[0x29, 0x02], []⟩

/-- Python dictionary lookup `d[key]` for a `Dict[UUID, ...]`: the entry
whose key is equal (UUID equality is byte equality) to `key`; `KeyError`
when absent. Dict keys are unique, so taking the first match is exact. -/
def dictGet {α : Type} (l : List (UUID × α)) (key : UUID) : Except GattError α :=
  match l.find? (fun e => e.1.value == key.value) with
  | some e => .ok e.2
  | none => .error .keyError

/-- `Characteristic.cccd_handle`:
`self.descriptors[UUID.from_int(SpecUuidNumber.CLIENT_CHAR_CONFIG, UuidLength.BIT_8)].handle`. -/
def Characteristic.cccd_handle (c : Characteristic) : Except GattError Nat :=
  (dictGet c.descriptors cccdUUID).map (fun d => d.handle)

/-- `class Service`: uuid, start handle, name, end handle (default
`0xFFFF`), and the characteristic dictionary (`Dict[UUID, Characteristic]`). -/
structure Service where
  uuid : UUID
  start_handle : Nat
  name : List Char
  end_handle : Nat
  chars : List (UUID × Characteristic)
deriving DecidableEq, Repr

/-- `class GattDB`: the service dictionary (`Dict[UUID, Service]`). The
characteristic view is non-owning, so it is modelled as functions over the
current `GattDB` value rather than a stored copy. -/
structure GattDB where
  services : List (UUID × Service)
deriving DecidableEq, Repr

/-- The characteristics the view iterates over: every service's
characteristics, in service-dictionary then characteristic-dictionary
order (the loop nest shared by `__getitem__`, `__contains__`, `values`). -/
def GattDB.viewChars (db : GattDB) : List Characteristic :=
  (db.services.map (fun s => s.2.chars.map (fun e => e.2))).flatten

/-- `GattDB.CharacteristicView.__len__`:
`sum(len(service.chars) for service in self._db.services.values())`. -/
def GattDB.viewLen (db : GattDB) : Nat :=
  (db.services.map (fun s => s.2.chars.length)).sum

/-- `GattDB.CharacteristicView.__contains__`: scan all services'
characteristics for one whose `char.uuid == key` (byte equality). -/
def GattDB.viewContains (db : GattDB) (key : UUID) : Bool :=
  db.viewChars.any (fun c => c.uuid.value == key.value)

/-- `GattDB.CharacteristicView.__getitem__`: first characteristic whose
`char.uuid == key`; `KeyError` when none matches. -/
def GattDB.viewGetitem (db : GattDB) (key : UUID) : Except GattError Characteristic :=
  match db.viewChars.find? (fun c => c.uuid.value == key.value) with
  | some c => .ok c
  | none => .error .keyError

/-- `GattDB.handle2uuid`: first characteristic whose value handle equals
`handle`; `KeyError` when none matches. -/
def GattDB.handle2uuid (db : GattDB) (handle : Nat) : Except GattError UUID :=
  match db.viewChars.find? (fun c => c.handle == handle) with
  | some c => .ok c.uuid
  | none => .error .keyError

/-- `GattDB.uuid2handle`: `self.characteristics[uuid].handle`. -/
def GattDB.uuid2handle (db : GattDB) (uuid : UUID) : Except GattError Nat :=
  (db.viewGetitem uuid).map (fun c => c.handle)

/-- One cell of a CSV row, before `csv.writer` stringifies it: a string,
an int, a `SpecUuidNumber` member, the stringified property flag set
(`str(char.props)`), an optional-bytes value, or the `UUID` class object
itself (which `csv.writer` renders as `<class ...UUID>`, not as a field
name). -/
inductive Cell where
  | str (s : List Char)
  | int (n : Nat)
  | specNum (n : Nat)
  | propsStr (p : Nat)
  | bytes (b : Option (List Nat))
  | uuidClass
deriving DecidableEq, Repr

/-- The header row written by `dump_to_csv`:
`["handle", "description", UUID, "properties", "value"]` — the third cell
is the `UUID` class object, not a string. -/
def headerRow : List Cell :=
  [.str "handle".data, .str "description".data, .uuidClass,
   .str "properties".data, .str "value".data]

/-- The service row: `[service.start_handle, SpecUuidNumber.PRIMARY_SERVICE,
service.uuid.as_string, desc, "SERVICE"]` with `desc` the service name or
`"unknown"`. -/
def serviceRow (s : Service) : List Cell :=
  [.int s.start_handle, .specNum 0x2800, .str s.uuid.as_string,
   .str (if s.name == [] then "unknown".data else s.name), .str "SERVICE".data]

/-- The characteristic declaration row: `[char.descriptor_handle,
SpecUuidNumber.CHAR_DECLARATION, "28:03", str(char.props), ""]`. -/
def declarationRow (c : Characteristic) : List Cell :=
  [.int c.descriptor_handle, .specNum 0x2803, .str "28:03".data, .propsStr c.props, .str []]

/-- The characteristic value row: `[char.handle, description,
char.uuid.as_string, "", char.value]` with `description` the characteristic
name or `"unknown"`. -/
def valueRow (c : Characteristic) : List Cell :=
  [.int c.handle, .str (if c.name == [] then "unknown".data else c.name),
   .str c.uuid.as_string, .str [], .bytes c.value]

/-- The descriptor row: `[descriptor.handle,
SpecUuidNumber(descriptor.uuid.as_int).name, descriptor.uuid.as_string, "",
descriptor.value]`; `SpecUuidNumber(...)` raises `ValueError` on an
unrecognized number. -/
def descriptorRow (d : Descriptor) : Except GattError (List Cell) :=
  match SpecUuidNumber.name? d.uuid.as_int with
  | some nm => .ok [.int d.handle, .str nm, .str d.uuid.as_string, .str [], .bytes d.value]
  | none => .error .valueError

/-- Error-propagating map over a list: the shape of the dump's `for` loops,
where the first `ValueError` aborts the whole dump. -/
def mapE {α β : Type} (f : α → Except GattError β) : List α → Except GattError (List β)
  | [] => .ok []
  | a :: l => do
    let b ← f a
    let bs ← mapE f l
    pure (b :: bs)

/-- The rows one characteristic contributes: its declaration row, its value
row, then one row per descriptor in dictionary order. -/
def characteristicRows (c : Characteristic) : Except GattError (List (List Cell)) := do
  let dRows ← mapE descriptorRow (c.descriptors.map (fun e => e.2))
  pure (declarationRow c :: valueRow c :: dRows)

/-- The rows one service contributes: its service row, then each
characteristic's rows in dictionary order. -/
def serviceRows (s : Service) : Except GattError (List (List Cell)) := do
  let cRows ← mapE characteristicRows (s.chars.map (fun e => e.2))
  pure (serviceRow s :: cRows.flatten)

/-- `GattDB.dump_to_csv`, as the list of rows it writes: the header row,
then each service's rows in dictionary order. -/
def GattDB.dump_to_csv (db : GattDB) : Except GattError (List (List Cell)) := do
  let sRows ← mapE serviceRows (db.services.map (fun e => e.2))
  pure (headerRow :: sRows.flatten)

/-- `UUIDs.__new__`: unconditionally raises
`Exception("This class shall not be instantiated")`, so no `UUIDs` instance
is ever produced. The result type is the (uninhabitable in practice)
instance placeholder `Unit`. -/
def UUIDs.new : Except GattError Unit :=
  .error .constructionError

/-- Decidable equality for `Except` results, so concrete runs of the
embedded operations can be checked by `decide`. -/
instance {ε α : Type} [DecidableEq ε] [DecidableEq α] : DecidableEq (Except ε α) := fun x y =>
  match x, y with
  | .ok a, .ok b =>
    if h : a = b then .isTrue (by rw [h]) else .isFalse (by simp [h])
  | .error e, .error f =>
    if h : e = f then .isTrue (by rw [h]) else .isFalse (by simp [h])
  | .ok _, .error _ => .isFalse (by simp)
  | .error _, .ok _ => .isFalse (by simp)

/-- Python dictionary insertion `service.chars[uuid] = char` for a key not
already present: the new entry is appended in iteration order. -/
def Service.insertChar (s : Service) (k : UUID) (c : Characteristic) : Service :=
  ⟨s.uuid, s.start_handle, s.name, s.end_handle, s.chars ++ [(k, c)]⟩

/-- The §8 Battery scenario: the CCCD descriptor at handle `0x0013` with
value `[0x01, 0x00]`. -/
def battDesc : Descriptor := ⟨0x13, cccdUUID, some [0x01, 0x00]⟩

/-- The §8 Battery scenario: the Battery Level characteristic
(`00002a19-...`, value handle `0x0012`, declaration handle `0x0011`,
properties `READ|NOTIFY`) carrying the CCCD descriptor. -/
def battChar : Characteristic :=
  ⟨0x12, 0x11,
   ⟨[0x00, 0x00, 0x2a, 0x19, 0x00, 0x00, 0x10, 0x00, 0x80, 0x00, 0x00, 0x80, 0x5f, 0x9b, 0x34, 0xfb],
    "Battery Level".data⟩,
   0x12, "Battery Level".data, none, [(cccdUUID, battDesc)]⟩

/-- The §8 Battery scenario: the Battery Service (`0000180f-...`, start
handle `0x0010`) holding the Battery Level characteristic. -/
def battSvc : Service :=
  ⟨⟨[0x00, 0x00, 0x18, 0x0f, 0x00, 0x00, 0x10, 0x00, 0x80, 0x00, 0x00, 0x80, 0x5f, 0x9b, 0x34, 0xfb],
    "Battery Service".data⟩,
   0x10, "Battery Service".data, 0xFFFF, [(battChar.uuid, battChar)]⟩

/-- The §8 Battery scenario GattDB: exactly the one Battery service. -/
def battDB : GattDB := ⟨[(battSvc.uuid, battSvc)]⟩

/-- A characteristic whose property bitmask is exactly `READ` (`0x02`). -/
def readOnlyChar : Characteristic :=
  ⟨0x22, 0x21, ⟨[0x2a, 0x19], []⟩, CharProps.READ, [], none, []⟩

/-- The Battery Service UUID string used for the round-trip witness. -/
def batteryServiceStr : List Char := "00:00:18:0f-0000-1000-8000-00805f9b34fb".data

/-- The 16 bytes `from_string` decodes `batteryServiceStr` to. -/
def roundTripUUID : UUID :=
  ⟨[0x00, 0x00, 0x18, 0x0f, 0x00, 0x00, 0x10, 0x00,
    0x80, 0x00, 0x00, 0x80, 0x5f, 0x9b, 0x34, 0xfb], []⟩

/-! ## Helper lemmas -/

theorem beq_and_sixteen_iff_testBit (m : Nat) :
    ((m &&& 16 == 16) = true) ↔ m.testBit 4 = true := by
  have h16 : (16 : Nat) = 2 ^ 4 := by norm_num
  rw [h16, Nat.and_two_pow]
  cases h : m.testBit 4 <;> simp

theorem find?_eq_some_of_mem_unique {α : Type} (p : α → Bool) (a : α) (hpa : p a = true) :
    ∀ (l : List α), a ∈ l → (∀ b ∈ l, p b = true → b = a) → l.find? p = some a
  | [], ha, _ => absurd ha (List.not_mem_nil a)
  | x :: t, ha, huniq => by
    by_cases hx : p x = true
    · have hxa : x = a := huniq x (List.mem_cons_self x t) hx
      subst hxa
      exact List.find?_cons_of_pos t hx
    · have ha' : a ∈ t := by
        rcases List.mem_cons.mp ha with rfl | h
        · exact absurd hpa hx
        · exact h
      rw [List.find?_cons_of_neg t hx]
      exact find?_eq_some_of_mem_unique p a hpa t ha'
        (fun b hb hpb => huniq b (List.mem_cons_of_mem x hb) hpb)

theorem eq_of_mem_pairwise_ne {α β : Type} (f : α → β) :
    ∀ (l : List α), l.Pairwise (fun x y => f x ≠ f y) →
      ∀ a b, a ∈ l → b ∈ l → f a = f b → a = b
  | [], _, a, _, ha, _, _ => absurd ha (List.not_mem_nil a)
  | x :: t, hp, a, b, ha, hb, hf => by
    have hx := (List.pairwise_cons.mp hp).1
    have ht := (List.pairwise_cons.mp hp).2
    rcases List.mem_cons.mp ha with rfl | ha'
    · rcases List.mem_cons.mp hb with rfl | hb'
      · rfl
      · exact absurd hf (hx b hb')
    · rcases List.mem_cons.mp hb with rfl | hb'
      · exact absurd hf.symm (hx a ha')
      · exact eq_of_mem_pairwise_ne f t ht a b ha' hb' hf

theorem mem_viewChars_of_mem {db : GattDB} {sv : Service} {c : Characteristic}
    (hsv : sv ∈ db.services.map (fun e => e.2))
    (hc : c ∈ sv.chars.map (fun e => e.2)) : c ∈ db.viewChars := by
  unfold GattDB.viewChars
  rw [List.mem_flatten]
  rcases List.mem_map.mp hsv with ⟨e, he, rfl⟩
  exact ⟨e.2.chars.map (fun x => x.2), List.mem_map_of_mem _ he, hc⟩

/-! ## Claim theorems -/

/-- C9: every attempt to instantiate the `UUIDs` registry fails with the
construction error; no instance is ever produced. -/
theorem uuids_registry_not_instantiable :
    UUIDs.new = Except.error GattError.constructionError ∧
    ∀ u : Unit, UUIDs.new ≠ Except.ok u :=
  ⟨rfl, fun _ h => by simp [UUIDs.new] at h⟩

/-- C2 (code evaluation): the header row `dump_to_csv` writes has the
`UUID` class object — not the string `"uuid"` — as its third cell; shown by
running the dump on an empty `GattDB`. -/
theorem dump_header_third_cell_is_class_object :
    GattDB.dump_to_csv ⟨[]⟩ = Except.ok [headerRow] ∧
    headerRow = [Cell.str "handle".data, Cell.str "description".data, Cell.uuidClass,
      Cell.str "properties".data, Cell.str "value".data] ∧
    Cell.uuidClass ≠ Cell.str "uuid".data := by
  refine ⟨by decide, rfl, by decide⟩

/-- C4: `is_readable` is true exactly when the NOTIFY flag (bit `0x10`,
i.e. bit index 4) is set; a READ-only characteristic (bit `0x02`) is not
`is_readable`. -/
theorem is_readable_tests_notify_not_read :
    (∀ c : Characteristic, c.is_readable = true ↔ c.props.testBit 4 = true) ∧
    readOnlyChar.props.testBit 1 = true ∧ readOnlyChar.is_readable = false := by
  refine ⟨fun c => ?_, by decide, by decide⟩
  simpa [Characteristic.is_readable, CharProps.NOTIFY] using beq_and_sixteen_iff_testBit c.props

/-- C10: a 2-byte UUID built by `from_int(n, 2)` renders as its 4
lower-case hex digits followed by four hyphens; no zero-extension to 128
bits happens. -/
theorem short_uuid_renders_hex_then_four_hyphens (n : Nat) (h : n < 256 ^ 2) :
    ∃ u : UUID, UUID.from_int n 2 [] = Except.ok u ∧
      u.as_string = bytesHex u.value ++ ['-', '-', '-', '-'] ∧
      (bytesHex u.value).length = 4 ∧
      (bytesHex u.value).map Char.toLower = bytesHex u.value := by
  refine ⟨⟨natToBytesBE 2 n, []⟩, by unfold UUID.from_int; rw [if_pos h], rfl, rfl, ?_⟩
  have hlow : ∀ m, m < 16 → (hexDigitChar m).toLower = hexDigitChar m := by decide
  have h1 : (n / 256 % 256) / 16 < 16 := by omega
  have h2 : (n / 256 % 256) % 16 < 16 := by omega
  have h3 : (n % 256) / 16 < 16 := by omega
  have h4 : (n % 256) % 16 < 16 := by omega
  simp [natToBytesBE, bytesHex, byteHex, hlow _ h1, hlow _ h2, hlow _ h3, hlow _ h4]

/-- C10 witness: the 2-byte CCCD number `0x2902` renders as `"2902----"`. -/
theorem short_uuid_renders_hex_then_four_hyphens_witness :
    (0x2902 : Nat) < 256 ^ 2 ∧
    ∃ u : UUID, UUID.from_int 0x2902 2 [] = Except.ok u ∧
      u.as_string = bytesHex u.value ++ ['-', '-', '-', '-'] ∧
      (bytesHex u.value).length = 4 ∧
      (bytesHex u.value).map Char.toLower = bytesHex u.value :=
  ⟨by decide, short_uuid_renders_hex_then_four_hyphens 0x2902 (by decide)⟩

/-- C1 counterexample: `UUID.from_int(0x2902, 2)` and the string `"2902"`
have the same hex digits once separators are stripped and both sides are
lower-cased, yet `__eq__` returns `False` on them: the code never strips
hyphens, and `as_string` of a 2-byte UUID is `"2902----"`. -/
theorem uuid_string_equality_counterexample :
    UUID.normalize (cccdUUID.as_string.map Char.toLower) =
      UUID.normalize ("2902".data.map Char.toLower) ∧
    cccdUUID.eq (PyValue.str "2902".data) = false ∧
    UUID.from_int 0x2902 2 [] = Except.ok cccdUUID := by
  refine ⟨by decide, by decide, by decide⟩

/-- C1 (amended): UUID equality holds against another UUID with the same
bytes, against the big-endian integer value of the bytes, and against an
equal byte sequence; against a string it holds exactly when `as_string`
with colons removed and lower-cased equals the other string lower-cased
(hyphens are kept on both sides). In particular `from_int(0x2902, 2)`
equals `0x2902`, the bytes `[0x29, 0x02]`, and the string `"2902----"`. -/
theorem uuid_equality_cross_representation :
    (∀ a b : UUID, a.eq (PyValue.uuid b) = true ↔ a.value = b.value) ∧
    (∀ (a : UUID) (n : Nat), a.eq (PyValue.int n) = true ↔ a.as_int = n) ∧
    (∀ (a : UUID) (bs : List Nat), a.eq (PyValue.bytes bs) = true ↔ a.value = bs) ∧
    (∀ (a : UUID) (s : List Char), a.eq (PyValue.str s) = true ↔
      (a.as_string.filter (fun c => c != ':')).map Char.toLower = s.map Char.toLower) ∧
    cccdUUID.eq (PyValue.int 0x2902) = true ∧
    cccdUUID.eq (PyValue.bytes [0x29, 0x02]) = true ∧
    cccdUUID.eq (PyValue.str "2902----".data) = true := by
  refine ⟨?_, ?_, ?_, ?_, by decide, by decide, by decide⟩ <;> intro a x <;> simp [UUID.eq]

/-- C7: with the descriptor dictionary's keys unique (as Python dict keys
are), `cccd_handle` fails with `KeyError` when no descriptor key has the
2-byte CCCD UUID bytes `[0x29, 0x02]`, and returns exactly that
descriptor's handle when one is present. -/
theorem cccd_handle_lookup (c : Characteristic)
    (huniq : c.descriptors.Pairwise (fun e f => e.1.value ≠ f.1.value)) :
    ((∀ e ∈ c.descriptors, e.1.value ≠ [0x29, 0x02]) →
      c.cccd_handle = Except.error GattError.keyError) ∧
    (∀ (k : UUID) (d : Descriptor), (k, d) ∈ c.descriptors → k.value = [0x29, 0x02] →
      c.cccd_handle = Except.ok d.handle) := by
  constructor
  · intro hnone
    have hfind : c.descriptors.find? (fun e => e.1.value == cccdUUID.value) = none := by
      rw [List.find?_eq_none]
      intro e he
      simpa [cccdUUID] using hnone e he
    simp [Characteristic.cccd_handle, dictGet, hfind, Except.map]
  · intro k d hmem hk
    have hfind : c.descriptors.find? (fun e => e.1.value == cccdUUID.value) = some (k, d) := by
      apply find?_eq_some_of_mem_unique _ _ (by simp [hk, cccdUUID]) _ hmem
      intro b hb hpb
      apply eq_of_mem_pairwise_ne (fun e => e.1.value) c.descriptors huniq b (k, d) hb hmem
      have hb' : b.1.value = cccdUUID.value := by simpa using hpb
      rw [hb']
      simpa [cccdUUID] using hk.symm
    simp [Characteristic.cccd_handle, dictGet, hfind, Except.map]

/-- C7 witness: the Battery Level characteristic carries a CCCD descriptor
at handle `0x0013`, and `cccd_handle` returns it. -/
theorem cccd_handle_lookup_witness :
    battChar.cccd_handle = Except.ok 0x13 :=
  (cccd_handle_lookup battChar (by decide)).2 cccdUUID battDesc (by decide) (by decide)

/-- C5: with value handles and characteristic UUID byte values unique
across the table, every characteristic of every service satisfies
`handle2uuid(C.handle) = C.uuid` and `uuid2handle(C.uuid) = C.handle`. -/
theorem handle_uuid_round_trip (db : GattDB) (sv : Service) (c : Characteristic)
    (hsv : sv ∈ db.services.map (fun e => e.2))
    (hc : c ∈ sv.chars.map (fun e => e.2))
    (hhandles : db.viewChars.Pairwise (fun a b => a.handle ≠ b.handle))
    (huuids : db.viewChars.Pairwise (fun a b => a.uuid.value ≠ b.uuid.value)) :
    db.handle2uuid c.handle = Except.ok c.uuid ∧
    db.uuid2handle c.uuid = Except.ok c.handle := by
  have hmem := mem_viewChars_of_mem hsv hc
  have hfind1 : db.viewChars.find? (fun x => x.handle == c.handle) = some c := by
    apply find?_eq_some_of_mem_unique _ _ (by simp) _ hmem
    intro b hb hpb
    exact eq_of_mem_pairwise_ne (fun x => x.handle) db.viewChars hhandles b c hb hmem
      (by simpa using hpb)
  have hfind2 : db.viewChars.find? (fun x => x.uuid.value == c.uuid.value) = some c := by
    apply find?_eq_some_of_mem_unique _ _ (by simp) _ hmem
    intro b hb hpb
    exact eq_of_mem_pairwise_ne (fun x => x.uuid.value) db.viewChars huuids b c hb hmem
      (by simpa using hpb)
  constructor
  · simp [GattDB.handle2uuid, hfind1]
  · simp [GattDB.uuid2handle, GattDB.viewGetitem, hfind2, Except.map]

/-- C5 witness: in the Battery scenario table, `handle2uuid(0x0012)`
returns the Battery Level UUID and `uuid2handle` returns `0x0012`. -/
theorem handle_uuid_round_trip_witness :
    battDB.handle2uuid battChar.handle = Except.ok battChar.uuid ∧
    battDB.uuid2handle battChar.uuid = Except.ok battChar.handle :=
  handle_uuid_round_trip battDB battSvc battChar (by decide) (by decide)
    (by decide) (by decide)

/-- C8: the characteristic view is live: its length is the sum of the
services' characteristic counts and equals the number of characteristics
the view iterates over; inserting a new characteristic into any service
grows the length by one and is immediately visible to `__contains__` and
`__getitem__` without rebuilding the `GattDB`. -/
theorem characteristic_view_is_live (l1 l2 : List (UUID × Service)) (su k : UUID)
    (sv : Service) (c : Characteristic) :
    (∀ db : GattDB, db.viewLen = (db.services.map (fun s => s.2.chars.length)).sum ∧
      db.viewLen = db.viewChars.length) ∧
    (GattDB.mk (l1 ++ (su, Service.insertChar sv k c) :: l2)).viewLen =
      (GattDB.mk (l1 ++ (su, sv) :: l2)).viewLen + 1 ∧
    (GattDB.mk (l1 ++ (su, Service.insertChar sv k c) :: l2)).viewContains c.uuid = true ∧
    ((GattDB.mk (l1 ++ (su, Service.insertChar sv k c) :: l2)).viewGetitem c.uuid).isOk
      = true := by
  have hmem : c ∈ (GattDB.mk (l1 ++ (su, Service.insertChar sv k c) :: l2)).viewChars := by
    unfold GattDB.viewChars Service.insertChar
    rw [List.mem_flatten]
    refine ⟨(sv.chars ++ [(k, c)]).map (fun e => e.2), ?_, by simp⟩
    exact List.mem_map_of_mem _ (List.mem_append_right _ (List.mem_cons_self _ _))
  refine ⟨?_, ?_, ?_, ?_⟩
  · intro db
    refine ⟨rfl, ?_⟩
    simp [GattDB.viewLen, GattDB.viewChars, List.length_flatten, List.map_map,
      Function.comp_def, List.length_map]
  · simp [GattDB.viewLen, Service.insertChar, List.map_append, List.sum_append]
    omega
  · unfold GattDB.viewContains
    rw [List.any_eq_true]
    exact ⟨c, hmem, by simp⟩
  · unfold GattDB.viewGetitem
    cases hf : (GattDB.mk (l1 ++ (su, Service.insertChar sv k c) :: l2)).viewChars.find?
        (fun x => x.uuid.value == c.uuid.value) with
    | some x => rfl
    | none =>
      exfalso
      rw [List.find?_eq_none] at hf
      exact absurd (by simp : (c.uuid.value == c.uuid.value) = true) (hf c hmem)

/-- C3 counterexample: on the §8 Battery scenario table (one service, one
characteristic, one descriptor) `dump_to_csv` emits 4 body rows, not 3: the
characteristic declaration row is also written. -/
theorem battery_dump_body_rows_not_three :
    (battDB.dump_to_csv).map (fun rows => (rows.drop 1).length) = Except.ok 4 ∧
    (4 : Nat) ≠ 3 :=
  ⟨by decide, by decide⟩

/-- C3 (amended): for a GattDB holding exactly one service with one
characteristic that has one descriptor (with a spec-recognized descriptor
UUID, as the CCCD is), `dump_to_csv` emits exactly 4 body rows — a service
row, a characteristic declaration row, a characteristic value row, and a
descriptor row — and the service row's value column is the literal
`"SERVICE"`. -/
theorem battery_scenario_dump_rows (su cu du : UUID) (sv : Service)
    (c : Characteristic) (d : Descriptor) (nm : List Char)
    (hsv : sv.chars = [(cu, c)]) (hd : c.descriptors = [(du, d)])
    (hnm : SpecUuidNumber.name? d.uuid.as_int = some nm) :
    GattDB.dump_to_csv ⟨[(su, sv)]⟩ = Except.ok
      [headerRow, serviceRow sv, declarationRow c, valueRow c,
       [Cell.int d.handle, Cell.str nm, Cell.str d.uuid.as_string, Cell.str [],
        Cell.bytes d.value]] ∧
    (serviceRow sv).getLast? = some (Cell.str "SERVICE".data) := by
  have hdRow : descriptorRow d = Except.ok
      [Cell.int d.handle, Cell.str nm, Cell.str d.uuid.as_string, Cell.str [],
       Cell.bytes d.value] := by
    simp [descriptorRow, hnm]
  have hcRows : characteristicRows c = Except.ok
      [declarationRow c, valueRow c,
       [Cell.int d.handle, Cell.str nm, Cell.str d.uuid.as_string, Cell.str [],
        Cell.bytes d.value]] := by
    simp only [characteristicRows, hd, List.map_cons, List.map_nil, mapE, hdRow]
    rfl
  have hsRows : serviceRows sv = Except.ok
      [serviceRow sv, declarationRow c, valueRow c,
       [Cell.int d.handle, Cell.str nm, Cell.str d.uuid.as_string, Cell.str [],
        Cell.bytes d.value]] := by
    simp only [serviceRows, hsv, List.map_cons, List.map_nil, mapE, hcRows]
    rfl
  refine ⟨?_, rfl⟩
  simp only [GattDB.dump_to_csv, List.map_cons, List.map_nil, mapE, hsRows]
  rfl

/-- C3 witness: the amended statement instantiated on the concrete Battery
scenario table. -/
theorem battery_scenario_dump_rows_witness :
    GattDB.dump_to_csv battDB = Except.ok
      [headerRow, serviceRow battSvc, declarationRow battChar, valueRow battChar,
       [Cell.int battDesc.handle, Cell.str "CLIENT_CHAR_CONFIG".data,
        Cell.str battDesc.uuid.as_string, Cell.str [], Cell.bytes battDesc.value]] ∧
    (serviceRow battSvc).getLast? = some (Cell.str "SERVICE".data) :=
  battery_scenario_dump_rows battSvc.uuid battChar.uuid cccdUUID battSvc battChar
    battDesc "CLIENT_CHAR_CONFIG".data rfl rfl (by decide)

theorem hexVal?_toLower {c : Char} {n : Nat} (h : hexVal? c = some n) :
    hexDigitChar n = c.toLower ∧ n < 16 := by
  unfold hexVal? at h
  cases hf : hexDigitVals.find? (fun p => p.1 == c) with
  | none => rw [hf] at h; simp at h
  | some p =>
    rw [hf] at h
    have hn : p.2 = n := by simpa using h
    have hmem := List.mem_of_find?_eq_some hf
    have hc : p.1 = c := by simpa using List.find?_some hf
    have hall : ∀ q ∈ hexDigitVals, hexDigitChar q.2 = q.1.toLower ∧ q.2 < 16 := by decide
    rcases hall p hmem with ⟨h1, h2⟩
    subst hn
    rw [← hc]
    exact ⟨h1, h2⟩

theorem fromhex_spec : ∀ (cs : List Char) (bs : List Nat), fromhex cs = some bs →
    bytesHex bs = cs.map Char.toLower ∧ ∀ b ∈ bs, b < 256
  | [], bs, h => by
    simp [fromhex] at h
    subst h
    exact ⟨rfl, by simp⟩
  | [_], bs, h => by simp [fromhex] at h
  | c1 :: c2 :: rest, bs, h => by
    simp only [fromhex] at h
    cases h1 : hexVal? c1 with
    | none => rw [h1] at h; exact absurd h (by simp)
    | some hi =>
    cases h2 : hexVal? c2 with
    | none => rw [h1, h2] at h; exact absurd h (by simp)
    | some lo =>
    cases hr : fromhex rest with
    | none => rw [h1, h2, hr] at h; exact absurd h (by simp)
    | some bs' =>
      rw [h1, h2, hr] at h
      have hbs : (16 * hi + lo) :: bs' = bs := by simpa using h
      subst hbs
      obtain ⟨ih1, ih2⟩ := fromhex_spec rest bs' hr
      obtain ⟨e1, l1⟩ := hexVal?_toLower h1
      obtain ⟨e2, l2⟩ := hexVal?_toLower h2
      have d1 : (16 * hi + lo) / 16 = hi := by omega
      have d2 : (16 * hi + lo) % 16 = lo := by omega
      constructor
      · have hbh : bytesHex ((16 * hi + lo) :: bs') = byteHex (16 * hi + lo) ++ bytesHex bs' := rfl
        rw [hbh, ih1, byteHex, d1, d2, e1, e2]
        rfl
      · intro b hb
        rcases List.mem_cons.mp hb with rfl | hb'
        · omega
        · exact ih2 b hb'

theorem normalize_append (a b : List Char) :
    UUID.normalize (a ++ b) = UUID.normalize a ++ UUID.normalize b := by
  simp [UUID.normalize, List.filter_append]

theorem normalize_dash_cons (l : List Char) :
    UUID.normalize ('-' :: l) = UUID.normalize l := rfl

theorem normalize_eq_self {l : List Char} (h : ∀ c ∈ l, c ≠ ':' ∧ c ≠ '-') :
    UUID.normalize l = l := by
  have h1 : l.filter (fun c => c != ':') = l :=
    List.filter_eq_self.mpr (fun a ha => by simpa using (h a ha).1)
  unfold UUID.normalize
  rw [h1]
  exact List.filter_eq_self.mpr (fun a ha => by simpa using (h a ha).2)

theorem mem_bytesHex_not_sep {bs : List Nat} (hb : ∀ b ∈ bs, b < 256) :
    ∀ c ∈ bytesHex bs, c ≠ ':' ∧ c ≠ '-' := by
  intro c hc
  unfold bytesHex at hc
  rw [List.mem_flatten] at hc
  obtain ⟨l, hl, hcl⟩ := hc
  rw [List.mem_map] at hl
  obtain ⟨b, hbm, rfl⟩ := hl
  have hb' := hb b hbm
  have hdig : ∀ m, m < 16 → hexDigitChar m ≠ ':' ∧ hexDigitChar m ≠ '-' := by decide
  simp only [byteHex, List.mem_cons, List.not_mem_nil, or_false] at hcl
  rcases hcl with rfl | rfl
  · exact hdig _ (by omega)
  · exact hdig _ (by omega)

theorem take_drop_reassemble (h : List Char) :
    h.take 8 ++ ((h.drop 8).take 4 ++ ((h.drop 12).take 4 ++
      ((h.drop 16).take 4 ++ h.drop 20))) = h := by
  have e20 : (h.drop 16).drop 4 = h.drop 20 := by rw [List.drop_drop]
  have e16 : (h.drop 12).drop 4 = h.drop 16 := by rw [List.drop_drop]
  have e12 : (h.drop 8).drop 4 = h.drop 12 := by rw [List.drop_drop]
  calc h.take 8 ++ ((h.drop 8).take 4 ++ ((h.drop 12).take 4 ++
          ((h.drop 16).take 4 ++ h.drop 20)))
      = h.take 8 ++ ((h.drop 8).take 4 ++ ((h.drop 12).take 4 ++
          ((h.drop 16).take 4 ++ (h.drop 16).drop 4))) := by rw [e20]
    _ = h.take 8 ++ ((h.drop 8).take 4 ++ ((h.drop 12).take 4 ++ h.drop 16)) := by
          rw [List.take_append_drop]
    _ = h.take 8 ++ ((h.drop 8).take 4 ++ ((h.drop 12).take 4 ++ (h.drop 12).drop 4)) := by
          rw [e16]
    _ = h.take 8 ++ ((h.drop 8).take 4 ++ h.drop 12) := by rw [List.take_append_drop]
    _ = h.take 8 ++ ((h.drop 8).take 4 ++ (h.drop 8).drop 4) := by rw [e12]
    _ = h.take 8 ++ h.drop 8 := by rw [List.take_append_drop]
    _ = h := List.take_append_drop 8 h

/-- C6: round trip — for a string `s` that decodes (after stripping `:` and
`-` separators) to a 16-byte UUID, `from_string(s).as_string` with
separators stripped is exactly the 16 bytes' lower-case hex digits, which
equal the normalized, lower-cased input. -/
theorem from_string_as_string_round_trip (s : List Char) (name : List Char) (u : UUID)
    (h : UUID.from_string s name = Except.ok u) (hlen : u.value.length = 16) :
    UUID.normalize u.as_string = bytesHex u.value ∧
    bytesHex u.value = (UUID.normalize s).map Char.toLower := by
  have hfx : fromhex (UUID.normalize s) = some u.value := by
    unfold UUID.from_string at h
    cases hf : fromhex (UUID.normalize s) with
    | none => rw [hf] at h; exact absurd h (by simp)
    | some bs =>
      rw [hf] at h
      have hu : UUID.mk bs name = u := by simpa using h
      rw [← hu]
  obtain ⟨hhex, hlt⟩ := fromhex_spec _ _ hfx
  refine ⟨?_, hhex⟩
  have hs : ∀ c ∈ bytesHex u.value, c ≠ ':' ∧ c ≠ '-' := mem_bytesHex_not_sep hlt
  unfold UUID.as_string
  rw [normalize_append, normalize_dash_cons, normalize_append, normalize_dash_cons,
      normalize_append, normalize_dash_cons, normalize_append, normalize_dash_cons]
  rw [normalize_eq_self (fun c hc => hs c (List.take_subset _ _ hc)),
      normalize_eq_self (fun c hc => hs c (List.drop_subset _ _ (List.take_subset _ _ hc))),
      normalize_eq_self (fun c hc => hs c (List.drop_subset _ _ (List.take_subset _ _ hc))),
      normalize_eq_self (fun c hc => hs c (List.drop_subset _ _ (List.take_subset _ _ hc))),
      normalize_eq_self (fun c hc => hs c (List.drop_subset _ _ hc))]
  exact take_drop_reassemble (bytesHex u.value)

/-- C6 witness: the Battery Service UUID string, with mixed `:` and `-`
separators, decodes to 16 bytes and round-trips through `as_string`. -/
theorem from_string_as_string_round_trip_witness :
    UUID.from_string batteryServiceStr [] = Except.ok roundTripUUID ∧
    roundTripUUID.value.length = 16 ∧
    (UUID.normalize roundTripUUID.as_string = bytesHex roundTripUUID.value ∧
     bytesHex roundTripUUID.value = (UUID.normalize batteryServiceStr).map Char.toLower) :=
  ⟨by decide, by decide,
   from_string_as_string_round_trip batteryServiceStr [] roundTripUUID (by decide) (by decide)⟩

end OpenGoPro
